import Mathlib

/-!
# Verification of the loxygen tree-walking Lox interpreter

Shallow embedding of the core data model and operations of the loxygen
interpreter (scanner/parser/resolver/interpreter pipeline for the Lox
language), together with theorems settling the specification claims.

Python dictionaries are modelled as association lists with insertion-order
semantics (`dictInsert` updates an existing key in place and appends a new
key at the end, exactly like CPython dicts).  Python `None` is Lox `nil`.
Python 64-bit floats are modelled as exact rationals plus a NaN value; the
operations exercised by the claims (addition, division with the `if right`
truthiness test, `==`) are embedded with their IEEE behaviour on NaN.
-/

namespace Loxygen

/-- Python-dict lookup (`d.get(k)` / `d[k]`): first pair whose key matches. -/
def dictGet [BEq α] (k : α) : List (α × β) → Option β
  | [] => none
  | (k2, v) :: rest => if k2 == k then some v else dictGet k rest

/-- Python-dict write `d[k] = v`: update the existing entry in place,
or append a fresh entry at the end (CPython insertion-order semantics). -/
def dictInsert [BEq α] (k : α) (v : β) : List (α × β) → List (α × β)
  | [] => [(k, v)]
  | (k2, v2) :: rest =>
      if k2 == k then (k2, v) :: rest else (k2, v2) :: dictInsert k v rest

/-- Modelled from the spec: `token.py` is not under `src/`.  The spec's token
kinds ("TokenKind covers punctuation, single/double-char operators, keywords
..., plus IDENTIFIER NUMBER STRING EOF"); names follow the `TokenType` members
referenced by the sources (`TokenType.EOF`, `TokenType.PLUS`, ...). -/
inductive TokenType where
  | LEFT_PAREN | RIGHT_PAREN | LEFT_BRACE | RIGHT_BRACE
  | COMMA | DOT | MINUS | PLUS | SEMICOLON | SLASH | STAR
  | BANG | BANG_EQUAL | EQUAL | EQUAL_EQUAL
  | GREATER | GREATER_EQUAL | LESS | LESS_EQUAL
  | IDENTIFIER | STRING | NUMBER
  | AND | CLASS | ELSE | FALSE | FUN | FOR | IF | NIL | OR
  | PRINT | RETURN | SUPER | THIS | TRUE | VAR | WHILE
  | EOF
deriving DecidableEq, Repr

/-- Python 64-bit float values as used by the interpreter: an exact rational
or NaN.  Division by zero is the only NaN producer the interpreter exposes. -/
inductive LoxNum where
  | finite (q : ℚ)
  | nan
deriving DecidableEq, Repr

/-- IEEE float addition restricted to the embedded values: NaN propagates. -/
def LoxNum.add : LoxNum → LoxNum → LoxNum
  | .finite a, .finite b => .finite (a + b)
  | _, _ => .nan

/-- IEEE float division for a non-zero divisor: NaN propagates.  The
interpreter's SLASH arm only reaches this with a truthy (non-zero) divisor. -/
def LoxNum.div : LoxNum → LoxNum → LoxNum
  | .finite a, .finite b => .finite (a / b)
  | _, _ => .nan

/-- IEEE float subtraction: NaN propagates. -/
def LoxNum.sub : LoxNum → LoxNum → LoxNum
  | .finite a, .finite b => .finite (a - b)
  | _, _ => .nan

/-- IEEE float multiplication: NaN propagates. -/
def LoxNum.mul : LoxNum → LoxNum → LoxNum
  | .finite a, .finite b => .finite (a * b)
  | _, _ => .nan

/-- Python `==` on floats: NaN compares unequal to everything, itself included. -/
def LoxNum.ieeeEq : LoxNum → LoxNum → Bool
  | .finite a, .finite b => a == b
  | _, _ => false

/-- Python `>` on floats: comparisons with NaN are false. -/
def LoxNum.ieeeGt : LoxNum → LoxNum → Bool
  | .finite a, .finite b => decide (b < a)
  | _, _ => false

/-- Python `>=` on floats: comparisons with NaN are false. -/
def LoxNum.ieeeGe : LoxNum → LoxNum → Bool
  | .finite a, .finite b => decide (b ≤ a)
  | _, _ => false

/-- Python truthiness of a float (`if right:`): zero is falsy, NaN is truthy. -/
def LoxNum.pyTruthy : LoxNum → Bool
  | .finite q => q != 0
  | .nan => true

/-- Modelled from the spec (`token.py` is not under `src/`):
"`LiteralValue` is one of `number(f64)`, `string(str)`, `bool`, or `nil`." -/
inductive LiteralValue where
  | nil
  | boolean (b : Bool)
  | num (x : LoxNum)
  | str (s : String)
deriving DecidableEq, Repr

/-- Modelled from the spec: `token.py` is not under `src/`.  "Token.
`{ kind: TokenKind, lexeme: str, literal: LiteralValue|None, line: int }`".
The field is called `type` in the sources (`expr.operator.type`,
`context.type`); as a plain value record it carries structural equality. -/
structure Token where
  type : TokenType
  lexeme : String
  literal : Option LiteralValue
  line : Nat
deriving DecidableEq, Repr

/-- `exceptions.LoxRunTimeError`: a runtime error carrying the offending
token and the message. -/
structure LoxRunTimeError where
  token : Token
  message : String
deriving DecidableEq, Repr

mutual

/-- `nodes.Expr` (nodes.py): frozen dataclasses, hence structural equality
and hashing over all fields, bottoming out at `Token` equality. -/
inductive Expr where
  | Assign (name : Token) (value : Expr)
  | Binary (left : Expr) (operator : Token) (right : Expr)
  | Call (callee : Expr) (paren : Token) (arguments : List Expr)
  | Get (object : Expr) (name : Token)
  | Grouping (expr : Expr)
  | Literal (value : LiteralValue)
  | Logical (left : Expr) (operator : Token) (right : Expr)
  | Set (object : Expr) (name : Token) (value : Expr)
  | Super (keyword : Token) (method : Token)
  | This (keyword : Token)
  | Unary (operator : Token) (right : Expr)
  | Variable (name : Token)

/-- `nodes.Function` (a statement node; also the payload of `Class.methods`). -/
inductive FunctionDecl where
  | mk (name : Token) (params : List Token) (body : List Stmt)

/-- `nodes.Stmt` variants.  `Class.superclass` is a `Variable` node in the
source; it is carried here as its token, the node being `Expr.Variable tok`. -/
inductive Stmt where
  | Block (statements : List Stmt)
  | Expression (expr : Expr)
  | Function (decl : FunctionDecl)
  | Class (name : Token) (superclass : Option Token) (methods : List FunctionDecl)
  | If (condition : Expr) (thenBranch : Stmt) (elseBranch : Option Stmt)
  | Print (expr : Expr)
  | Return (keyword : Token) (value : Option Expr)
  | Var (name : Token) (init : Option Expr)
  | While (condition : Expr) (body : Stmt)

end

mutual

def Expr.beq : Expr → Expr → Bool
  | .Assign n1 v1, .Assign n2 v2 => n1 == n2 && Expr.beq v1 v2
  | .Binary l1 o1 r1, .Binary l2 o2 r2 => Expr.beq l1 l2 && o1 == o2 && Expr.beq r1 r2
  | .Call c1 p1 a1, .Call c2 p2 a2 => Expr.beq c1 c2 && p1 == p2 && Expr.beqList a1 a2
  | .Get o1 n1, .Get o2 n2 => Expr.beq o1 o2 && n1 == n2
  | .Grouping e1, .Grouping e2 => Expr.beq e1 e2
  | .Literal v1, .Literal v2 => v1 == v2
  | .Logical l1 o1 r1, .Logical l2 o2 r2 => Expr.beq l1 l2 && o1 == o2 && Expr.beq r1 r2
  | .Set o1 n1 v1, .Set o2 n2 v2 => Expr.beq o1 o2 && n1 == n2 && Expr.beq v1 v2
  | .Super k1 m1, .Super k2 m2 => k1 == k2 && m1 == m2
  | .This k1, .This k2 => k1 == k2
  | .Unary o1 r1, .Unary o2 r2 => o1 == o2 && Expr.beq r1 r2
  | .Variable n1, .Variable n2 => n1 == n2
  | _, _ => false

def Expr.beqList : List Expr → List Expr → Bool
  | [], [] => true
  | e1 :: r1, e2 :: r2 => Expr.beq e1 e2 && Expr.beqList r1 r2
  | _, _ => false

end

instance : BEq Expr := ⟨Expr.beq⟩

mutual

/-- `runtime.LoxObject` (runtime.py:14): the tagged union
`LiteralValue | LoxCallable | LoxInstance`. -/
inductive LoxObject where
  | lit (v : LiteralValue)
  | callable (c : LoxCallable)
  | inst (i : LoxInstance)

/-- `runtime.LoxCallable` with its implementations `LoxFunction` and
`LoxClass`.  `Clock`, the only native, returns host wall-clock time and lies
outside the pure embedding; no claim depends on it. -/
inductive LoxCallable where
  | fn (f : LoxFunction)
  | cls (c : LoxClass)

/-- `runtime.LoxFunction`: declaration, captured closure, and the
`is_initializer` flag (called `isInit` here). -/
inductive LoxFunction where
  | mk (declaration : FunctionDecl) (closure : Environment) (isInit : Bool)

/-- `runtime.LoxClass`: name, optional superclass, method table
(`dict[str, LoxFunction]`). -/
inductive LoxClass where
  | mk (name : String) (superclass : Option LoxClass)
      (methods : List (String × LoxFunction))

/-- `runtime.LoxInstance`: its class and its field dictionary. -/
inductive LoxInstance where
  | mk (cls : LoxClass) (fields : List (String × LoxObject))

/-- `environment.Environment`: a values dictionary and an optional enclosing
environment, forming a singly-linked chain out to the globals. -/
inductive Environment where
  | mk (values : List (String × LoxObject)) (enclosing : Option Environment)

end

def LoxFunction.declaration : LoxFunction → FunctionDecl
  | ⟨d, _, _⟩ => d

def LoxFunction.closure : LoxFunction → Environment
  | ⟨_, c, _⟩ => c

def LoxFunction.isInit : LoxFunction → Bool
  | ⟨_, _, b⟩ => b

def LoxClass.name : LoxClass → String
  | ⟨n, _, _⟩ => n

def LoxClass.superclass : LoxClass → Option LoxClass
  | ⟨_, s, _⟩ => s

def LoxClass.methods : LoxClass → List (String × LoxFunction)
  | ⟨_, _, m⟩ => m

def LoxInstance.cls : LoxInstance → LoxClass
  | ⟨c, _⟩ => c

def LoxInstance.fields : LoxInstance → List (String × LoxObject)
  | ⟨_, f⟩ => f

def Environment.values : Environment → List (String × LoxObject)
  | ⟨v, _⟩ => v

def Environment.enclosing : Environment → Option Environment
  | ⟨_, e⟩ => e

def FunctionDecl.name : FunctionDecl → Token
  | ⟨n, _, _⟩ => n

def FunctionDecl.params : FunctionDecl → List Token
  | ⟨_, p, _⟩ => p

def FunctionDecl.body : FunctionDecl → List Stmt
  | ⟨_, _, b⟩ => b

/-- `Environment.define` (environment.py:17): `self.values[name] = value`. -/
def Environment.define (env : Environment) (name : String) (value : LoxObject) :
    Environment :=
  ⟨dictInsert name value env.values, env.enclosing⟩

/-- `Environment.ancestor` (environment.py:20): walk `distance` links outward.
The source asserts each `enclosing` is present; a missing link is `none`
(a host `AssertionError`). -/
def Environment.ancestor : Environment → Nat → Option Environment
  | e, 0 => some e
  | ⟨_, some enc⟩, d + 1 => enc.ancestor d
  | ⟨_, none⟩, _ + 1 => none

/-- `Environment.get_at` (environment.py:27):
`self.ancestor(distance).values[name]`; `none` is a host `KeyError`. -/
def Environment.get_at (env : Environment) (distance : Nat) (name : String) :
    Option LoxObject :=
  (env.ancestor distance).bind fun a => dictGet name a.values

/-- `Environment.get` (environment.py:33): try the own values dict, fall
through to the enclosing chain, raise "Undefined variable 'x'." at the root. -/
def Environment.get : Environment → Token → Except LoxRunTimeError LoxObject
  | ⟨values, enclosing⟩, name =>
    match dictGet name.lexeme values with
    | some v => .ok v
    | none =>
      match enclosing with
      | some e => e.get name
      | none =>
          .error ⟨name, "Undefined variable '" ++ name.lexeme ++ "'."⟩

/-- `Environment.assign` (environment.py:44): write into the innermost
values dict that already contains the name; raise "Undefined variable 'x'."
when no environment of the chain defines it (assign never creates). -/
def Environment.assign : Environment → Token → LoxObject →
    Except LoxRunTimeError Environment
  | ⟨values, enclosing⟩, name, value =>
    if (dictGet name.lexeme values).isSome then
      .ok ⟨dictInsert name.lexeme value values, enclosing⟩
    else
      match enclosing with
      | some e =>
        match e.assign name value with
        | .ok e2 => .ok ⟨values, some e2⟩
        | .error er => .error er
      | none =>
          .error ⟨name, "Undefined variable '" ++ name.lexeme ++ "'."⟩

/-- The chain of values dictionaries, innermost first (for specification). -/
def Environment.chain : Environment → List (List (String × LoxObject))
  | ⟨values, enclosing⟩ =>
    values :: (match enclosing with
               | some e => e.chain
               | none => [])

/-- Python `x is None`: the object is the `None` singleton, i.e. Lox `nil`. -/
def LoxObject.isPyNone : LoxObject → Bool
  | .lit .nil => true
  | _ => false

/-- `LoxClass.find_method` (runtime.py:85): own table first, then the
superclass chain. -/
def LoxClass.find_method : LoxClass → String → Option LoxFunction
  | ⟨_, superclass, methods⟩, name =>
    match dictGet name methods with
    | some m => some m
    | none =>
      match superclass with
      | some s => s.find_method name
      | none => none

/-- `LoxFunction.bind` (runtime.py:50): a fresh environment on top of the
closure defining `this`, wrapped in a copy of the function. -/
def LoxFunction.bind (f : LoxFunction) (inst : LoxInstance) : LoxFunction :=
  ⟨f.declaration,
   (Environment.mk [] (some f.closure)).define "this" (.inst inst),
   f.isInit⟩

/-- `LoxInstance.get` (runtime.py:115).  Python's
`(field := self.fields.get(name.lexeme)) is not None` conflates an absent
key with a field holding `None` (Lox `nil`), so the `dict.get` default
`None` is Lox `nil` here, and the guard tests for it. -/
def LoxInstance.get (i : LoxInstance) (name : Token) :
    Except LoxRunTimeError LoxObject :=
  let field := (dictGet name.lexeme i.fields).getD (.lit .nil)
  if !field.isPyNone then .ok field
  else
    match i.cls.find_method name.lexeme with
    | some method => .ok (.callable (.fn (method.bind i)))
    | none =>
        .error ⟨name, "Undefined property '" ++ name.lexeme ++ "'."⟩

/-- `LoxInstance.set` (runtime.py:125): unconditionally writes the field. -/
def LoxInstance.set (i : LoxInstance) (name : Token) (value : LoxObject) :
    LoxInstance :=
  ⟨i.cls, dictInsert name.lexeme value i.fields⟩

/-- Python `==` on the primitive `LiteralValue` part of `LoxObject`.
`bool` is an int subtype in Python, so `True == 1.0` holds; `nil` (`None`)
equals only itself; mixed primitive types otherwise compare unequal. -/
def LiteralValue.pyEq : LiteralValue → LiteralValue → Bool
  | .nil, .nil => true
  | .boolean a, .boolean b => a == b
  | .num a, .num b => a.ieeeEq b
  | .str a, .str b => a == b
  | .boolean a, .num (.finite q) => decide ((if a then (1 : ℚ) else 0) = q)
  | .num (.finite q), .boolean b => decide (q = (if b then (1 : ℚ) else 0))
  | _, _ => false

/-- `Interpreter.is_equal` (interpreter.py:174): guard out float/bool pairs,
then Python `==`.  On callables and instances Python `==` is object identity,
which a pure embedding does not track; those cases are mapped to `false`, and
no claim below depends on them. -/
def is_equal (obj1 obj2 : LoxObject) : Bool :=
  match obj1, obj2 with
  | .lit (.num _), .lit (.boolean _) => false
  | .lit (.boolean _), .lit (.num _) => false
  | .lit a, .lit b => a.pyEq b
  | _, _ => false

/-- `Interpreter.is_truthy` (interpreter.py:166). -/
def is_truthy : LoxObject → Bool
  | .lit .nil => false
  | .lit (.boolean b) => b
  | _ => true

/-- `Interpreter.check_number_operands` (interpreter.py:130). -/
def check_number_operands (operator : Token) (left right : LoxObject) :
    Except LoxRunTimeError (LoxNum × LoxNum) :=
  match left, right with
  | .lit (.num a), .lit (.num b) => .ok (a, b)
  | _, _ => .error ⟨operator, "Operands must be numbers."⟩

/-- The operator dispatch of `Interpreter.visit_binary_expr`
(interpreter.py:88-128) once both operands are evaluated.  The SLASH arm is
`left / right if right else float("nan")`: a falsy (zero) divisor yields NaN
instead of raising. -/
def evalBinaryOp (operator : Token) (left right : LoxObject) :
    Except LoxRunTimeError LoxObject :=
  match operator.type with
  | .GREATER =>
      (check_number_operands operator left right).map fun (a, b) =>
        .lit (.boolean (a.ieeeGt b))
  | .GREATER_EQUAL =>
      (check_number_operands operator left right).map fun (a, b) =>
        .lit (.boolean (a.ieeeGe b))
  | .LESS =>
      (check_number_operands operator left right).map fun (a, b) =>
        .lit (.boolean (b.ieeeGt a))
  | .LESS_EQUAL =>
      (check_number_operands operator left right).map fun (a, b) =>
        .lit (.boolean (b.ieeeGe a))
  | .MINUS =>
      (check_number_operands operator left right).map fun (a, b) =>
        .lit (.num (a.sub b))
  | .PLUS =>
      match left, right with
      | .lit (.num a), .lit (.num b) => .ok (.lit (.num (a.add b)))
      | .lit (.str a), .lit (.str b) => .ok (.lit (.str (a ++ b)))
      | _, _ =>
          .error ⟨operator, "Operands must be two numbers or two strings."⟩
  | .SLASH =>
      (check_number_operands operator left right).map fun (a, b) =>
        .lit (.num (if b.pyTruthy then a.div b else .nan))
  | .STAR =>
      (check_number_operands operator left right).map fun (a, b) =>
        .lit (.num (a.mul b))
  | .BANG_EQUAL => .ok (.lit (.boolean (!is_equal left right)))
  | .EQUAL_EQUAL => .ok (.lit (.boolean (is_equal left right)))
  | _ => .ok (.lit .nil)

/-- Outcome of `Interpreter.execute_block` on a function body: normal
completion, a `Return` signal carrying its payload, or a runtime error.
The `Return` signal is a non-error unwind distinct from runtime errors. -/
inductive ExecResult where
  | normal
  | ret (value : LoxObject)
  | err (e : LoxRunTimeError)

/-- Result of invoking a callable: a value, a raised `LoxRunTimeError`, or a
host `KeyError` (only reachable when an initializer's closure lacks `this`). -/
inductive CallOutcome where
  | value (v : LoxObject)
  | raised (e : LoxRunTimeError)
  | hostKeyError

/-- The fresh environment built by `LoxFunction.call` (runtime.py:57-59):
a child of the closure, with the parameters bound positionally over
`zip(params, arguments, strict=False)`. -/
def LoxFunction.callEnv (f : LoxFunction) (arguments : List LoxObject) :
    Environment :=
  (f.declaration.params.zip arguments).foldl
    (fun env pa => env.define pa.1.lexeme pa.2)
    (Environment.mk [] (some f.closure))

/-- `LoxFunction.arity` (runtime.py:72): the number of declared parameters. -/
def LoxFunction.arity (f : LoxFunction) : Nat :=
  f.declaration.params.length

/-- `LoxFunction.call` (runtime.py:56-70).  The executor for the body is a
parameter (the interpreter's `execute_block`).  An initializer returns
`self.closure.get_at(0, "this")` whether the body completes normally or
raises a `Return`, whose payload is then discarded. -/
def LoxFunction.call (f : LoxFunction)
    (exec : List Stmt → Environment → ExecResult)
    (arguments : List LoxObject) : CallOutcome :=
  let env := f.callEnv arguments
  match exec f.declaration.body env with
  | .err e => .raised e
  | .ret v =>
      if f.isInit then
        match f.closure.get_at 0 "this" with
        | some w => .value w
        | none => .hostKeyError
      else .value v
  | .normal =>
      if f.isInit then
        match f.closure.get_at 0 "this" with
        | some w => .value w
        | none => .hostKeyError
      else .value (.lit .nil)

/-- `LoxClass.call` (runtime.py:94): construct an instance, run a bound
`init` when present (mutations by `init` are not tracked; no claim below
inspects post-init fields), return the instance. -/
def LoxClass.call (c : LoxClass)
    (exec : List Stmt → Environment → ExecResult)
    (arguments : List LoxObject) : CallOutcome :=
  let inst : LoxInstance := ⟨c, []⟩
  match c.find_method "init" with
  | some init =>
    match (init.bind inst).call exec arguments with
    | .raised e => .raised e
    | .hostKeyError => .hostKeyError
    | .value _ => .value (.inst inst)
  | none => .value (.inst inst)

/-- `LoxCallable.arity`: `LoxFunction.arity` or `LoxClass.arity`
(runtime.py:100: the `init` arity, or 0 with no initializer). -/
def LoxCallable.arity : LoxCallable → Nat
  | .fn f => f.arity
  | .cls c =>
    match c.find_method "init" with
    | none => 0
    | some init => init.arity

/-- `Interpreter.visit_call_expr` (interpreter.py:138-154) after the callee
and the arguments are evaluated: reject non-callables, then reject an arity
mismatch with "Expected N arguments but got M." before any body runs. -/
def visit_call_expr (paren : Token) (callee : LoxObject)
    (arguments : List LoxObject)
    (exec : List Stmt → Environment → ExecResult) : CallOutcome :=
  match callee with
  | .callable c =>
    if arguments.length ≠ c.arity then
      .raised ⟨paren,
        "Expected " ++ toString c.arity ++ " arguments but got " ++
          toString arguments.length ++ "."⟩
    else
      match c with
      | .fn f => f.call exec arguments
      | .cls cl => cl.call exec arguments
  | _ => .raised ⟨paren, "Can only call functions and classes."⟩

/-- The `context: int | Token` parameter of `Lox.error` (loxygen.py:77). -/
inductive ErrorContext where
  | line (n : Nat)
  | token (t : Token)

/-- `Lox.error` (loxygen.py:77-90): the diagnostic line printed to standard
error.  An `int` context yields no `Error at ...:` segment at all; a `Token`
context yields `Error at end:` for EOF and `Error at 'lexeme':` otherwise. -/
def Lox.errorMessage (context : ErrorContext) (message : String) : String :=
  match context with
  | .line line => "[line " ++ toString line ++ "] " ++ "" ++ message
  | .token t =>
    let position :=
      if t.type = TokenType.EOF then "end" else "'" ++ t.lexeme ++ "'"
    "[line " ++ toString t.line ++ "] " ++ ("Error at " ++ position ++ ": ")
      ++ message

/-- The diagnostic for a runtime error (loxygen.py:65):
`self.error(e.token.line, e.message)` — an `int` context. -/
def Lox.runtimeDiagnostic (e : LoxRunTimeError) : String :=
  Lox.errorMessage (.line e.token.line) e.message

/-- `resolver.FunctionType`. -/
inductive FunctionType where
  | NONE | FUNCTION | INITIALIZER | METHOD
deriving DecidableEq, Repr

/-- `resolver.ClassType`. -/
inductive ClassType where
  | NONE | CLASS | SUBCLASS
deriving DecidableEq, Repr

/-- One scope of the resolver's stack: `dict[str, bool]`, the flag turning
`true` once the name is defined. -/
abbrev Scope := List (String × Bool)

/-- The mutable state threaded through `Resolver` (resolver.py:27-33)
together with the `Interpreter.locals` side table it writes into
(interpreter.py:21,189).  `scopes` keeps the innermost scope at the head
(Python's `scopes[-1]`); `locals` is a dict keyed by the expression nodes,
whose equality is the structural one of the frozen dataclasses. -/
structure ResolverState where
  scopes : List Scope
  currentFunction : FunctionType
  currentClass : ClassType
  errors : List (Token × String)
  locals : List (Expr × Nat)

/-- `Resolver.declare` (resolver.py:51): with a nonempty stack, flag a
duplicate in the innermost scope, then mark the name `False` there. -/
def Resolver.declare (s : ResolverState) (name : Token) : ResolverState :=
  match s.scopes with
  | [] => s
  | sc :: rest =>
    let s2 :=
      if (dictGet name.lexeme sc).isSome then
        { s with errors := s.errors ++
            [(name, "Already a variable with this name in this scope.")] }
      else s
    { s2 with scopes := dictInsert name.lexeme false sc :: rest }

/-- `Resolver.define` (resolver.py:62): mark the name `True` in the
innermost scope. -/
def Resolver.define (s : ResolverState) (name : Token) : ResolverState :=
  match s.scopes with
  | [] => s
  | sc :: rest => { s with scopes := dictInsert name.lexeme true sc :: rest }

/-- `Interpreter.resolve` (interpreter.py:189): `self.locals[expr] = depth`. -/
def Interpreter.resolve (s : ResolverState) (expr : Expr) (depth : Nat) :
    ResolverState :=
  { s with locals := dictInsert expr depth s.locals }

/-- `Resolver.resolve_local` (resolver.py:66): the index of the innermost
scope containing the name (0 = innermost), recorded in the side table;
nothing is recorded when no scope contains it (a global). -/
def Resolver.resolve_local (s : ResolverState) (expr : Expr) (name : Token) :
    ResolverState :=
  match s.scopes.findIdx? (fun sc => (dictGet name.lexeme sc).isSome) with
  | some idx => Interpreter.resolve s expr idx
  | none => s

/-- Scope push of the `Resolver.scope` context manager (resolver.py:43). -/
def Resolver.beginScope (s : ResolverState) : ResolverState :=
  { s with scopes := [] :: s.scopes }

/-- Scope pop of the `Resolver.scope` context manager. -/
def Resolver.endScope (s : ResolverState) : ResolverState :=
  { s with scopes := s.scopes.tail }

/-- `self.current_scope[k] = b` (used for `"this"` and `"super"`,
resolver.py:85,115); always preceded by a scope push in the source. -/
def Resolver.setInCurrentScope (s : ResolverState) (k : String) (b : Bool) :
    ResolverState :=
  match s.scopes with
  | [] => s
  | sc :: rest => { s with scopes := dictInsert k b sc :: rest }

/-- `Resolver.visit_variable_expr` (resolver.py:230): flag a read of a
declared-but-undefined local (`.get(lexeme) is False` in the innermost
scope), then resolve the node locally. -/
def visitVariableExpr (s : ResolverState) (name : Token) : ResolverState :=
  let s :=
    match s.scopes with
    | sc :: _ =>
      if dictGet name.lexeme sc == some false then
        { s with errors := s.errors ++
            [(name, "Can't read local variable in its own initializer.")] }
      else s
    | [] => s
  Resolver.resolve_local s (.Variable name) name

/-- The parameter loop of `Resolver.resolve_function` (resolver.py:76-78). -/
def declareParams (s : ResolverState) : List Token → ResolverState
  | [] => s
  | p :: rest => declareParams (Resolver.define (Resolver.declare s p) p) rest

mutual

/-- The `Resolver.visit_*_stmt` dispatch (resolver.py). -/
def resolveStmt (s : ResolverState) : Stmt → ResolverState
  | .Block stmts =>
      Resolver.endScope (resolveStmts (Resolver.beginScope s) stmts)
  | .Expression e => resolveExpr s e
  | .Function decl =>
      resolveFunctionDecl
        (Resolver.define (Resolver.declare s decl.name) decl.name)
        decl .FUNCTION
  | .Class name superclass methods =>
      resolveClassStmt s name superclass methods
  | .If condition thenBranch elseBranch =>
      let s := resolveExpr s condition
      let s := resolveStmt s thenBranch
      match elseBranch with
      | some e => resolveStmt s e
      | none => s
  | .Print e => resolveExpr s e
  | .Return keyword value =>
      let s :=
        if s.currentFunction = .NONE then
          { s with errors := s.errors ++
              [(keyword, "Can't return from top-level code.")] }
        else s
      match value with
      | some v =>
        let s :=
          if s.currentFunction = .INITIALIZER then
            { s with errors := s.errors ++
                [(keyword, "Can't return a value from an initializer.")] }
          else s
        resolveExpr s v
      | none => s
  | .Var name init =>
      let s := Resolver.declare s name
      let s :=
        match init with
        | some e => resolveExpr s e
        | none => s
      Resolver.define s name
  | .While condition body => resolveStmt (resolveExpr s condition) body
termination_by st => 3 * sizeOf st

/-- `Resolver.resolve(*statements)` over a statement list. -/
def resolveStmts (s : ResolverState) : List Stmt → ResolverState
  | [] => s
  | st :: rest => resolveStmts (resolveStmt s st) rest
termination_by l => 3 * sizeOf l

/-- The `Resolver.visit_*_expr` dispatch (resolver.py). -/
def resolveExpr (s : ResolverState) : Expr → ResolverState
  | .Assign name value =>
      Resolver.resolve_local (resolveExpr s value) (.Assign name value) name
  | .Binary left _ right => resolveExpr (resolveExpr s left) right
  | .Call callee _ args => resolveExprs (resolveExpr s callee) args
  | .Get object _ => resolveExpr s object
  | .Grouping e => resolveExpr s e
  | .Literal _ => s
  | .Logical left _ right => resolveExpr (resolveExpr s left) right
  | .Set object _ value =>
      resolveExpr (resolveExpr s value) object
  | .Super keyword method =>
      let s :=
        if s.currentClass = .NONE then
          { s with errors := s.errors ++
              [(keyword, "Can't use 'super' outside of a class.")] }
        else if s.currentClass ≠ .SUBCLASS then
          { s with errors := s.errors ++
              [(keyword, "Can't use 'super' in a class with no superclass.")] }
        else s
      Resolver.resolve_local s (.Super keyword method) keyword
  | .This keyword =>
      let s :=
        if s.currentClass = .NONE then
          { s with errors := s.errors ++
              [(keyword, "Can't use 'this' outside of a class.")] }
        else s
      Resolver.resolve_local s (.This keyword) keyword
  | .Unary _ right => resolveExpr s right
  | .Variable name => visitVariableExpr s name
termination_by e => 3 * sizeOf e

/-- Resolution of an argument list (resolver.py:179). -/
def resolveExprs (s : ResolverState) : List Expr → ResolverState
  | [] => s
  | e :: rest => resolveExprs (resolveExpr s e) rest
termination_by l => 3 * sizeOf l

/-- `Resolver.resolve_function` (resolver.py:72-81): save and set
`current_function`, open a scope, declare/define the parameters, resolve the
body, close the scope, restore `current_function`. -/
def resolveFunctionDecl (s : ResolverState) (decl : FunctionDecl)
    (functionType : FunctionType) : ResolverState :=
  match decl with
  | .mk _ params body =>
    let enclosingFunction := s.currentFunction
    let s := { s with currentFunction := functionType }
    let s := Resolver.beginScope s
    let s := declareParams s params
    let s := resolveStmts s body
    let s := Resolver.endScope s
    { s with currentFunction := enclosingFunction }
termination_by 3 * sizeOf decl

/-- The method loop of `Resolver.resolve_class_body` (resolver.py:86-90):
a method named `init` resolves as INITIALIZER, the others as METHOD. -/
def resolveMethods (s : ResolverState) : List FunctionDecl → ResolverState
  | [] => s
  | m :: rest =>
      let declaration :=
        if m.name.lexeme == "init" then FunctionType.INITIALIZER
        else FunctionType.METHOD
      resolveMethods (resolveFunctionDecl s m declaration) rest
termination_by l => 3 * sizeOf l

/-- `Resolver.resolve_class_body` (resolver.py:83-90): a scope holding
`this`, then the methods. -/
def resolveClassBody (s : ResolverState) (methods : List FunctionDecl) :
    ResolverState :=
  let s := Resolver.beginScope s
  let s := Resolver.setInCurrentScope s "this" true
  let s := resolveMethods s methods
  Resolver.endScope s
termination_by 3 * sizeOf methods + 1

/-- `Resolver.visit_class_stmt` (resolver.py:96-121). -/
def resolveClassStmt (s : ResolverState) (name : Token)
    (superclass : Option Token) (methods : List FunctionDecl) :
    ResolverState :=
  let enclosingClass := s.currentClass
  let s := { s with currentClass := .CLASS }
  let s := Resolver.define (Resolver.declare s name) name
  let s :=
    match superclass with
    | some sup =>
      let s :=
        if name.lexeme == sup.lexeme then
          { s with errors := s.errors ++
              [(sup, "A class can't inherit from itself.")] }
        else s
      let s := { s with currentClass := .SUBCLASS }
      let s := visitVariableExpr s sup
      let s := Resolver.beginScope s
      let s := Resolver.setInCurrentScope s "super" true
      let s := resolveClassBody s methods
      Resolver.endScope s
    | none => resolveClassBody s methods
  { s with currentClass := enclosingClass }
termination_by 3 * sizeOf methods + 2

end

/-- Specification helper: the operand pair is two Lox numbers. -/
def isNumberValue : LoxObject → Bool
  | .lit (.num _) => true
  | _ => false

/-- Specification helper: the value is a Lox string. -/
def isStringValue : LoxObject → Bool
  | .lit (.str _) => true
  | _ => false

/-- Specification helper: rewrite the innermost chain entry containing the
key (used to state what a successful `Environment.assign` does). -/
def updateInnermost (x : String) (v : LoxObject) :
    List (List (String × LoxObject)) → List (List (String × LoxObject))
  | [] => []
  | m :: rest =>
    if (dictGet x m).isSome then dictInsert x v m :: rest
    else m :: updateInnermost x v rest

/-- An identifier token `a` on line 1, as the scanner would produce it. -/
def tokA : Token := ⟨.IDENTIFIER, "a", none, 1⟩

/-- The `Variable` node for a use of `a` on line 1: both occurrences in
`c1prog` are this exact structural value, as the frozen dataclasses make
them compare and hash equal. -/
def varA : Expr := .Variable tokA

/-- The resolver's starting state (`Resolver.__init__` with a fresh
`Interpreter.locals`). -/
def initialResolverState : ResolverState := ⟨[], .NONE, .NONE, [], []⟩

/-- The one-line program `{ var a; { print a; } print a; }`: two distinct
occurrences of the variable `a`, structurally identical (same lexeme, same
line), the inner one at depth 1 and the outer one at depth 0. -/
def c1prog : List Stmt :=
  [.Block [.Var tokA none, .Block [.Print varA], .Print varA]]

/-- An identifier token `p` on line 1. -/
def tokP : Token := ⟨.IDENTIFIER, "p", none, 1⟩

/-- A class with no methods and no superclass. -/
def bagClass : LoxClass := ⟨"Bag", none, []⟩

/-- A fresh instance of `bagClass` with no fields yet. -/
def bagInst : LoxInstance := ⟨bagClass, []⟩

/-- A `+` operator token. -/
def plusTok : Token := ⟨.PLUS, "+", none, 1⟩

/-- A `/` operator token. -/
def slashTok : Token := ⟨.SLASH, "/", none, 1⟩

/-- A `)` token, carried by call expressions for error reporting. -/
def parenTok : Token := ⟨.RIGHT_PAREN, ")", none, 1⟩

/-- The global environment of a fresh interpreter, as far as the claims
need it. -/
def closure0 : Environment := ⟨[], none⟩

/-- The declaration of a parameterless `init` method. -/
def initDecl : FunctionDecl := ⟨⟨.IDENTIFIER, "init", none, 1⟩, [], []⟩

/-- A `LoxFunction` for `init` with the initializer flag set. -/
def initFn : LoxFunction := ⟨initDecl, closure0, true⟩

/-- An executor whose body immediately raises `Return` with a payload. -/
def execRet : List Stmt → Environment → ExecResult :=
  fun _ _ => .ret (.lit (.str "discarded"))

/-- An executor whose body completes normally. -/
def execNormal : List Stmt → Environment → ExecResult :=
  fun _ _ => .normal

/-- The declaration of a two-parameter function `f(x, y)`. -/
def fnDeclXY : FunctionDecl :=
  ⟨⟨.IDENTIFIER, "f", none, 1⟩,
   [⟨.IDENTIFIER, "x", none, 1⟩, ⟨.IDENTIFIER, "y", none, 1⟩], []⟩

/-- A `LoxFunction` value for `fnDeclXY`. -/
def fnXY : LoxFunction := ⟨fnDeclXY, closure0, false⟩

/-- The declaration of `g(x, x)`: a duplicated parameter name, which the
resolver must flag. -/
def dupDecl : FunctionDecl :=
  ⟨⟨.IDENTIFIER, "g", none, 1⟩,
   [⟨.IDENTIFIER, "x", none, 1⟩, ⟨.IDENTIFIER, "x", none, 2⟩], []⟩

/-- A two-environment chain: `{x: 1}` enclosing over a global `{y: "g"}`. -/
def envOuter : Environment := ⟨[("y", .lit (.str "g"))], none⟩

/-- The inner environment of the two-environment chain fixture. -/
def envInner : Environment :=
  ⟨[("x", .lit (.num (.finite 1)))], some envOuter⟩

/-- The token for an unbound variable `z` on line 6. -/
def tokZ : Token := ⟨.IDENTIFIER, "z", none, 6⟩

/-- The token for the globally bound variable `y` on line 5. -/
def tokY : Token := ⟨.IDENTIFIER, "y", none, 5⟩

/-- A `return` keyword token on line 9. -/
def retTok : Token := ⟨.RETURN, "return", none, 9⟩

/-- A resolver state inside an initializer body (as set by
`resolve_function` for a method named `init`). -/
def initializerState : ResolverState := ⟨[[]], .INITIALIZER, .CLASS, [], []⟩

/-- Specification helper: the resolver only ever appends to its error list;
state `b` extends the errors of state `a`. -/
def ErrsExtends (a b : ResolverState) : Prop :=
  ∃ t, b.errors = a.errors ++ t

/-- C1: the claim says distinct occurrences never collide in the side table,
but the frozen-dataclass nodes key `Interpreter.locals` structurally: on
`{ var a; { print a; } print a; }` the resolver first records depth 1 for the
inner occurrence of `a`, then resolving the structurally identical outer
occurrence overwrites that single shared entry with depth 0, leaving one
entry where the claim requires two. -/
theorem c1_locals_structural_collision :
    (resolveStmts (Resolver.beginScope initialResolverState)
        [.Var tokA none, .Block [.Print varA]]).locals = [(varA, 1)] ∧
    (resolveStmts initialResolverState c1prog).locals = [(varA, 0)] := by
  constructor <;>
    simp +decide [resolveStmts, resolveStmt, resolveExpr, visitVariableExpr,
      Resolver.beginScope, Resolver.endScope, Resolver.declare,
      Resolver.define, Resolver.resolve_local, Interpreter.resolve, dictGet,
      dictInsert, initialResolverState, c1prog, varA, tokA, List.findIdx?,
      Expr.beq]

/-- C2: after `set` writes the field `p` with value `nil`, the field is
present in the instance's field dictionary, yet `get` raises
"Undefined property 'p'." because its `is not None` guard conflates a
`nil`-valued field with an absent one — the claim (and the spec's
field-lookup-first contract) requires `get` to return `nil` here. -/
theorem c2_nil_field_unreachable :
    dictGet "p" ((bagInst.set tokP (.lit .nil)).fields) = some (.lit .nil) ∧
    (bagInst.set tokP (.lit .nil)).get tokP =
      .error ⟨tokP, "Undefined property 'p'."⟩ :=
  ⟨rfl, rfl⟩

/-- C10 counterexample: a diagnostic carrying only a line number is printed
without any `Error:` marker, so the claim's `[line N] Error: MESSAGE` form
for line-only static errors does not match the code, which prints
`[line N] MESSAGE`. -/
theorem c10_line_only_counterexample :
    Lox.errorMessage (.line 3) "Unexpected character." =
      "[line 3] Unexpected character." ∧
    Lox.errorMessage (.line 3) "Unexpected character." ≠
      "[line 3] Error: Unexpected character." := by
  exact ⟨rfl, by decide⟩

/-- Joining the literal pieces of the `Error at 'lexeme': ` segment. -/
theorem errorAtSegment (lex : String) :
    "Error at " ++ ("'" ++ lex ++ "'") ++ ": " =
      "Error at '" ++ lex ++ "': " := by
  simp only [← String.append_assoc]
  rw [String.append_assoc ("Error at " ++ "'" ++ lex)]
  rfl

/-- C10 amended: every diagnostic is `[line N] Error at LOC: MESSAGE` when
attached to a token — `LOC` being `end` for EOF and `'lexeme'` otherwise —
while a diagnostic attached to a line only (scanner errors and runtime
errors, the latter reported via the token's line) is `[line N] MESSAGE`,
with no `Error at LOC:` segment and no `Error:` marker. -/
theorem c10_diagnostic_format (n : Nat) (msg : String) (t : Token)
    (e : LoxRunTimeError) :
    Lox.errorMessage (.line n) msg = "[line " ++ toString n ++ "] " ++ msg ∧
    (t.type = .EOF →
      Lox.errorMessage (.token t) msg =
        "[line " ++ toString t.line ++ "] " ++ "Error at end: " ++ msg) ∧
    (t.type ≠ .EOF →
      Lox.errorMessage (.token t) msg =
        "[line " ++ toString t.line ++ "] " ++
          ("Error at '" ++ t.lexeme ++ "': ") ++ msg) ∧
    Lox.runtimeDiagnostic e =
      "[line " ++ toString e.token.line ++ "] " ++ e.message := by
  refine ⟨?_, ?_, ?_, ?_⟩
  · show "[line " ++ toString n ++ "] " ++ "" ++ msg = _
    rw [String.append_empty]
  · intro h
    simp only [Lox.errorMessage]
    rw [if_pos h]
    rfl
  · intro h
    simp only [Lox.errorMessage]
    rw [if_neg h, ← errorAtSegment]
  · show "[line " ++ toString e.token.line ++ "] " ++ "" ++ e.message = _
    rw [String.append_empty]

/-- C10 witness: the amended format theorem applied to the concrete EOF
token, a concrete identifier token, a line-only diagnostic, and a concrete
runtime error. -/
theorem c10_witness :
    Lox.errorMessage (.token ⟨.EOF, "", none, 7⟩) "Expect expression." =
      "[line 7] " ++ "Error at end: " ++ "Expect expression." ∧
    Lox.errorMessage (.token ⟨.IDENTIFIER, "x", none, 2⟩) "Oops." =
      "[line 2] " ++ ("Error at 'x': ") ++ "Oops." := by
  constructor
  · exact (c10_diagnostic_format 0 "Expect expression." ⟨.EOF, "", none, 7⟩
      ⟨⟨.EOF, "", none, 7⟩, ""⟩).2.1 rfl
  · exact (c10_diagnostic_format 0 "Oops." ⟨.IDENTIFIER, "x", none, 2⟩
      ⟨⟨.EOF, "", none, 7⟩, ""⟩).2.2.1 (by decide)

/-- C6 counterexample: at the pair (NaN, NaN) the claim's final clause fails:
the scalars are structurally equal, yet `is_equal` is `false` (Python float
`==` on NaN). -/
theorem c6_nan_counterexample :
    ¬ (is_equal (.lit (.num .nan)) (.lit (.num .nan)) = true ↔
        (LiteralValue.num .nan = LiteralValue.num .nan)) := by
  decide

/-- C6 amended: `is_equal(nil, nil)` is true; `is_equal(nil, x)` is false for
any other value; numbers and booleans never compare equal in either order;
and two primitive values are equal exactly when they are structurally equal
with the exception of NaN, which is equal to nothing, itself included. -/
theorem c6_is_equal_characterization (x : LoxObject) (a b : LiteralValue)
    (nv : LoxNum) (t : Bool) :
    is_equal (.lit .nil) (.lit .nil) = true ∧
    (x ≠ .lit .nil → is_equal (.lit .nil) x = false) ∧
    is_equal (.lit (.num nv)) (.lit (.boolean t)) = false ∧
    is_equal (.lit (.boolean t)) (.lit (.num nv)) = false ∧
    (is_equal (.lit a) (.lit b) = true ↔ (a = b ∧ a ≠ .num .nan)) := by
  refine ⟨rfl, ?_, ?_, rfl, ?_⟩
  · intro hx
    cases x with
    | lit v => cases v with
      | nil => exact absurd rfl hx
      | boolean b => rfl
      | num m => rfl
      | str s => rfl
    | callable c => rfl
    | inst i => rfl
  · cases nv <;> rfl
  · cases a <;> cases b <;>
      simp_all +decide [is_equal, LiteralValue.pyEq, LoxNum.ieeeEq]
    all_goals
      (rename_i x y; cases x <;> cases y <;>
        simp_all +decide [LoxNum.ieeeEq])

/-- C6 witness: the characterization applied at concrete values — a boolean
is not `nil`, `1` and `true` are not `is_equal`, and two equal finite
numbers are. -/
theorem c6_witness :
    (LoxObject.lit (.boolean true) ≠ .lit .nil) ∧
    is_equal (.lit .nil) (.lit (.boolean true)) = false ∧
    (is_equal (.lit (.num (.finite 1))) (.lit (.num (.finite 1))) = true ↔
      (LiteralValue.num (.finite 1) = .num (.finite 1) ∧
        LiteralValue.num (.finite 1) ≠ .num .nan)) := by
  refine ⟨by simp, ?_, ?_⟩
  · exact (c6_is_equal_characterization (.lit (.boolean true))
      (.num (.finite 1)) (.num (.finite 1)) (.finite 1) true).2.1 (by simp)
  · exact (c6_is_equal_characterization (.lit (.boolean true))
      (.num (.finite 1)) (.num (.finite 1)) (.finite 1) true).2.2.2.2

/-- C5: evaluating `l + r` adds two numbers, concatenates two strings, and
raises "Operands must be two numbers or two strings." exactly when the
operands are neither two numbers nor two strings (nil, booleans, callables
and instances included). -/
theorem c5_plus_operator (operator : Token) (l r : LoxObject)
    (hop : operator.type = .PLUS) :
    (∀ x y, l = .lit (.num x) → r = .lit (.num y) →
        evalBinaryOp operator l r = .ok (.lit (.num (x.add y)))) ∧
    (∀ a b, l = .lit (.str a) → r = .lit (.str b) →
        evalBinaryOp operator l r = .ok (.lit (.str (a ++ b)))) ∧
    (((isNumberValue l && isNumberValue r) = false ∧
      (isStringValue l && isStringValue r) = false) ↔
        evalBinaryOp operator l r =
          .error ⟨operator, "Operands must be two numbers or two strings."⟩) := by
  refine ⟨?_, ?_, ?_⟩
  · rintro x y rfl rfl
    simp [evalBinaryOp, hop]
  · rintro a b rfl rfl
    simp [evalBinaryOp, hop]
  · rcases l with ⟨v1⟩ | c1 | i1 <;> rcases r with ⟨v2⟩ | c2 | i2
    all_goals try cases v1
    all_goals try cases v2
    all_goals simp [evalBinaryOp, hop, isNumberValue, isStringValue]

/-- C5 witness: the characterization applied at a plus token with two
concrete numbers and with a nil/boolean pair. -/
theorem c5_witness :
    plusTok.type = TokenType.PLUS ∧
    evalBinaryOp plusTok (.lit (.num (.finite 1))) (.lit (.num (.finite 2))) =
      .ok (.lit (.num ((LoxNum.finite 1).add (.finite 2)))) ∧
    evalBinaryOp plusTok (.lit .nil) (.lit (.boolean true)) =
      .error ⟨plusTok, "Operands must be two numbers or two strings."⟩ := by
  refine ⟨rfl, ?_, ?_⟩
  · exact (c5_plus_operator plusTok _ _ rfl).1 _ _ rfl rfl
  · exact (c5_plus_operator plusTok (.lit .nil) (.lit (.boolean true))
      rfl).2.2.mp (by constructor <;> rfl)

/-- C7: `l / r` with numeric operands never raises; with divisor `0.0` it
yields NaN, and `is_equal` of that result with itself is false. -/
theorem c7_division_by_zero (operator : Token) (x y : LoxNum)
    (hop : operator.type = .SLASH) :
    evalBinaryOp operator (.lit (.num x)) (.lit (.num (.finite 0))) =
      .ok (.lit (.num .nan)) ∧
    is_equal (.lit (.num .nan)) (.lit (.num .nan)) = false ∧
    (∃ z, evalBinaryOp operator (.lit (.num x)) (.lit (.num y)) =
      .ok (.lit (.num z))) := by
  refine ⟨?_, rfl, ?_⟩
  · simp [evalBinaryOp, hop, check_number_operands, LoxNum.pyTruthy,
      Except.map]
  · exact ⟨if y.pyTruthy then x.div y else .nan,
      by simp [evalBinaryOp, hop, check_number_operands, Except.map]⟩

/-- C7 witness: division of `7.0` by `0.0` through the slash token. -/
theorem c7_witness :
    slashTok.type = TokenType.SLASH ∧
    evalBinaryOp slashTok (.lit (.num (.finite 7))) (.lit (.num (.finite 0)))
      = .ok (.lit (.num .nan)) := by
  exact ⟨rfl, (c7_division_by_zero slashTok (.finite 7) (.finite 0) rfl).1⟩

/-- C3: a bound initializer's `call` returns the instance bound as `this` at
depth 0 of its closure, both when the body completes normally and when a
`Return` signal unwinds it (its payload discarded). -/
theorem c3_initializer_returns_this (f : LoxFunction) (i : LoxInstance)
    (args : List LoxObject) (exec : List Stmt → Environment → ExecResult)
    (hinit : f.isInit = true)
    (hbody :
      exec (f.bind i).declaration.body ((f.bind i).callEnv args) = .normal ∨
      ∃ v, exec (f.bind i).declaration.body ((f.bind i).callEnv args) =
        .ret v) :
    (f.bind i).call exec args = .value (.inst i) := by
  have hb : (f.bind i).isInit = true := by
    cases f
    simpa [LoxFunction.bind, LoxFunction.isInit] using hinit
  have hthis : (f.bind i).closure.get_at 0 "this" = some (.inst i) := by
    cases f
    rfl
  rcases hbody with hb2 | ⟨v, hb2⟩ <;>
    simp [LoxFunction.call, hb2, hb, hthis]

/-- C3 witness: the theorem applied to the concrete parameterless `init`
bound to `bagInst`, under an executor raising `Return` with a payload. -/
theorem c3_witness :
    initFn.isInit = true ∧
    (initFn.bind bagInst).call execRet [] = .value (.inst bagInst) := by
  refine ⟨rfl, ?_⟩
  exact c3_initializer_returns_this initFn bagInst [] execRet rfl
    (Or.inr ⟨.lit (.str "discarded"), rfl⟩)

/-- `Environment.get` walks the chain innermost-first and returns the first
binding, or raises at the root. -/
theorem Environment.get_spec : ∀ (env : Environment) (name : Token),
    env.get name =
      match env.chain.findSome? (fun m => dictGet name.lexeme m) with
      | some w => .ok w
      | none =>
          .error ⟨name, "Undefined variable '" ++ name.lexeme ++ "'."⟩
  | ⟨values, none⟩, name => by
      simp only [Environment.get, Environment.chain, List.findSome?_cons]
      cases dictGet name.lexeme values <;> simp
  | ⟨values, some e⟩, name => by
      have ih := Environment.get_spec e name
      simp only [Environment.get, Environment.chain, List.findSome?_cons]
      cases dictGet name.lexeme values <;> simp [ih]

/-- `Environment.assign` raises at the root when no chain entry holds the
name; otherwise it rewrites the innermost entry holding it, leaving every
other values dictionary as it was. -/
theorem Environment.assign_spec :
    ∀ (env : Environment) (name : Token) (v : LoxObject),
    (env.chain.findSome? (fun m => dictGet name.lexeme m) = none →
      env.assign name v =
        .error ⟨name, "Undefined variable '" ++ name.lexeme ++ "'."⟩) ∧
    ((env.chain.findSome? (fun m => dictGet name.lexeme m)).isSome →
      ∃ env2, env.assign name v = .ok env2 ∧
        env2.chain = updateInnermost name.lexeme v env.chain)
  | ⟨values, none⟩, name, v => by
      constructor
      · intro hnone
        simp only [Environment.chain, List.findSome?_cons] at hnone
        cases hd : dictGet name.lexeme values with
        | some w => rw [hd] at hnone; simp at hnone
        | none => simp [Environment.assign, hd]
      · intro hsome
        simp only [Environment.chain, List.findSome?_cons] at hsome
        cases hd : dictGet name.lexeme values with
        | some w =>
            exact ⟨⟨dictInsert name.lexeme v values, none⟩,
              by simp [Environment.assign, hd],
              by simp [Environment.chain, updateInnermost, hd]⟩
        | none => rw [hd] at hsome; simp at hsome
  | ⟨values, some e⟩, name, v => by
      have ih := Environment.assign_spec e name v
      constructor
      · intro hnone
        simp only [Environment.chain, List.findSome?_cons] at hnone
        cases hd : dictGet name.lexeme values with
        | some w => rw [hd] at hnone; simp at hnone
        | none =>
            rw [hd] at hnone
            simp only at hnone
            have := ih.1 hnone
            simp [Environment.assign, hd, this]
      · intro hsome
        simp only [Environment.chain, List.findSome?_cons] at hsome
        cases hd : dictGet name.lexeme values with
        | some w =>
            exact ⟨⟨dictInsert name.lexeme v values, some e⟩,
              by simp [Environment.assign, hd],
              by simp [Environment.chain, updateInnermost, hd]⟩
        | none =>
            rw [hd] at hsome
            simp only at hsome
            rcases ih.2 hsome with ⟨e2, he2, hchain⟩
            exact ⟨⟨values, some e2⟩,
              by simp [Environment.assign, hd, he2],
              by simp [Environment.chain, updateInnermost, hd, hchain]⟩

/-- A list on which some element satisfies the finder has a find result. -/
theorem findSome?_isSome_of_mem {α β : Type} (f : α → Option β) :
    ∀ (l : List α) (a : α), a ∈ l → (f a).isSome = true →
      (l.findSome? f).isSome = true
  | [], a, ha, _ => absurd ha (List.not_mem_nil a)
  | x :: xs, a, ha, hfa => by
      rw [List.findSome?_cons]
      cases hx : f x with
      | some b => simp
      | none =>
          rcases List.mem_cons.mp ha with rfl | hmem
          · rw [hx] at hfa; simp at hfa
          · exact findSome?_isSome_of_mem f xs a hmem hfa

/-- C8: when no values map of the chain binds the name, `get` and `assign`
both raise "Undefined variable 'x'." carrying the token (hence its line),
and the failed `assign` creates no binding; when a binding exists, `get`
returns the innermost one and `assign` updates exactly the innermost
environment defining the name. -/
theorem c8_environment_chain (env : Environment) (name : Token)
    (v : LoxObject) :
    ((env.chain.all fun m => (dictGet name.lexeme m).isNone) = true →
      env.get name =
        .error ⟨name, "Undefined variable '" ++ name.lexeme ++ "'."⟩ ∧
      env.assign name v =
        .error ⟨name, "Undefined variable '" ++ name.lexeme ++ "'."⟩) ∧
    ((env.chain.any fun m => (dictGet name.lexeme m).isSome) = true →
      (∃ w, env.get name = .ok w ∧
        env.chain.findSome? (fun m => dictGet name.lexeme m) = some w) ∧
      (∃ env2, env.assign name v = .ok env2 ∧
        env2.chain = updateInnermost name.lexeme v env.chain)) := by
  constructor
  · intro hall
    have hnone : env.chain.findSome? (fun m => dictGet name.lexeme m) =
        none := by
      rw [List.findSome?_eq_none_iff]
      intro m hm
      have := List.all_eq_true.mp hall m hm
      simpa [Option.isNone_iff_eq_none] using this
    refine ⟨?_, (Environment.assign_spec env name v).1 hnone⟩
    rw [Environment.get_spec, hnone]
  · intro hany
    have hsome : (env.chain.findSome?
        (fun m => dictGet name.lexeme m)).isSome = true := by
      rcases List.any_eq_true.mp hany with ⟨m, hm, hx⟩
      exact findSome?_isSome_of_mem _ env.chain m hm hx
    rcases Option.isSome_iff_exists.mp hsome with ⟨w, hw⟩
    refine ⟨⟨w, ?_, hw⟩, (Environment.assign_spec env name v).2 hsome⟩
    rw [Environment.get_spec, hw]

/-- C8 witness: on the chain `{x: 1} → {y: "g"}`, looking up and assigning
the unbound `z` raises "Undefined variable 'z'.", and assigning the global
`y` succeeds, rewriting only the entry of the environment defining it. -/
theorem c8_witness :
    (envInner.chain.all fun m => (dictGet tokZ.lexeme m).isNone) = true ∧
    envInner.get tokZ =
      .error ⟨tokZ, "Undefined variable '" ++ tokZ.lexeme ++ "'."⟩ ∧
    (envInner.chain.any fun m => (dictGet tokY.lexeme m).isSome) = true ∧
    (∃ env2, envInner.assign tokY (.lit .nil) = .ok env2 ∧
      env2.chain = updateInnermost tokY.lexeme (.lit .nil) envInner.chain) := by
  refine ⟨rfl, ?_, rfl, ?_⟩
  · exact ((c8_environment_chain envInner tokZ (.lit .nil)).1 rfl).1
  · exact ((c8_environment_chain envInner tokY (.lit .nil)).2 rfl).2

theorem ErrsExtends.rfl (a : ResolverState) : ErrsExtends a a :=
  ⟨[], by simp⟩

theorem ErrsExtends.trans {a b c : ResolverState}
    (h1 : ErrsExtends a b) (h2 : ErrsExtends b c) : ErrsExtends a c := by
  rcases h1 with ⟨t1, h1⟩
  rcases h2 with ⟨t2, h2⟩
  exact ⟨t1 ++ t2, by rw [h2, h1, List.append_assoc]⟩

theorem ErrsExtends.mem {a b : ResolverState} {e : Token × String}
    (hm : e ∈ a.errors) (h : ErrsExtends a b) : e ∈ b.errors := by
  rcases h with ⟨t, ht⟩
  rw [ht]
  exact List.mem_append_left t hm

theorem ext_if_append (s : ResolverState) (P : Prop) [Decidable P]
    (L : List (Token × String)) :
    ErrsExtends s (if P then { s with errors := s.errors ++ L } else s) := by
  split
  · exact ⟨L, Eq.refl _⟩
  · exact ErrsExtends.rfl s
theorem setCurrentClass_ext (s : ResolverState) (c : ClassType) :
    ErrsExtends s { s with currentClass := c } := ⟨[], by simp⟩

theorem setCurrentFunction_ext (s : ResolverState) (c : FunctionType) :
    ErrsExtends s { s with currentFunction := c } := ⟨[], by simp⟩

theorem declare_ext (s : ResolverState) (name : Token) :
    ErrsExtends s (Resolver.declare s name) := by
  unfold Resolver.declare
  cases hs : s.scopes with
  | nil => exact ErrsExtends.rfl s
  | cons sc rest =>
      try dsimp only
      split
      · exact ⟨_, rfl⟩
      · exact ⟨[], by simp⟩

theorem define_ext (s : ResolverState) (name : Token) :
    ErrsExtends s (Resolver.define s name) := by
  unfold Resolver.define
  cases hs : s.scopes with
  | nil => exact ErrsExtends.rfl s
  | cons sc rest => exact ⟨[], by simp⟩

theorem resolve_local_ext (s : ResolverState) (e : Expr) (name : Token) :
    ErrsExtends s (Resolver.resolve_local s e name) := by
  unfold Resolver.resolve_local
  cases s.scopes.findIdx? (fun sc => (dictGet name.lexeme sc).isSome) with
  | none => exact ErrsExtends.rfl s
  | some idx => exact ⟨[], by simp [Interpreter.resolve]⟩

theorem beginScope_ext (s : ResolverState) :
    ErrsExtends s (Resolver.beginScope s) :=
  ⟨[], by simp [Resolver.beginScope]⟩

theorem endScope_ext (s : ResolverState) :
    ErrsExtends s (Resolver.endScope s) :=
  ⟨[], by simp [Resolver.endScope]⟩

theorem setInCurrentScope_ext (s : ResolverState) (k : String) (b : Bool) :
    ErrsExtends s (Resolver.setInCurrentScope s k b) := by
  unfold Resolver.setInCurrentScope
  cases s.scopes with
  | nil => exact ErrsExtends.rfl s
  | cons sc rest => exact ⟨[], by simp⟩

theorem visitVariableExpr_ext (s : ResolverState) (name : Token) :
    ErrsExtends s (visitVariableExpr s name) := by
  unfold visitVariableExpr
  try dsimp only
  refine ErrsExtends.trans ?_ (resolve_local_ext _ _ _)
  cases hs : s.scopes with
  | nil => exact ErrsExtends.rfl s
  | cons sc rest =>
      try dsimp only
      split
      · exact ⟨_, rfl⟩
      · exact ErrsExtends.rfl s

theorem declareParams_ext (s : ResolverState) :
    ∀ ps : List Token, ErrsExtends s (declareParams s ps)
  | [] => ErrsExtends.rfl s
  | p :: rest => by
      rw [declareParams]
      exact ((declare_ext s p).trans
        (define_ext (Resolver.declare s p) p)).trans
        (declareParams_ext _ rest)

mutual

theorem resolveStmt_ext (s : ResolverState) (st : Stmt) :
    ErrsExtends s (resolveStmt s st) := by
  cases st with
  | Block stmts =>
      rw [resolveStmt]
      exact ((beginScope_ext s).trans
        (resolveStmts_ext (Resolver.beginScope s) stmts)).trans
        (endScope_ext _)
  | Expression e =>
      rw [resolveStmt]; exact resolveExpr_ext s e
  | Function decl =>
      rw [resolveStmt]
      exact ((declare_ext s decl.name).trans
        (define_ext _ decl.name)).trans
        (resolveFunctionDecl_ext _ decl .FUNCTION)
  | Class name superclass methods =>
      rw [resolveStmt]
      exact resolveClassStmt_ext s name superclass methods
  | If condition thenBranch elseBranch =>
      cases elseBranch with
      | none =>
          rw [resolveStmt]
          exact (resolveExpr_ext s condition).trans
            (resolveStmt_ext _ thenBranch)
      | some e =>
          rw [resolveStmt]
          exact ((resolveExpr_ext s condition).trans
            (resolveStmt_ext _ thenBranch)).trans (resolveStmt_ext _ e)
  | Print e =>
      rw [resolveStmt]; exact resolveExpr_ext s e
  | Return keyword value =>
      cases value with
      | none =>
          rw [resolveStmt]
          exact ext_if_append s (s.currentFunction = .NONE)
            [(keyword, "Can't return from top-level code.")]
      | some v =>
          rw [resolveStmt]
          try dsimp only
          refine ErrsExtends.trans
            (ext_if_append s (s.currentFunction = .NONE)
              [(keyword, "Can't return from top-level code.")]) ?_
          generalize (if s.currentFunction = FunctionType.NONE then
            { s with errors := s.errors ++
                [(keyword, "Can't return from top-level code.")] }
            else s) = s1
          refine ErrsExtends.trans
            (ext_if_append s1 (s1.currentFunction = .INITIALIZER)
              [(keyword, "Can't return a value from an initializer.")]) ?_
          exact resolveExpr_ext _ v
  | Var name init =>
      cases init with
      | none =>
          rw [resolveStmt]
          exact (declare_ext s name).trans (define_ext _ name)
      | some e =>
          rw [resolveStmt]
          exact ((declare_ext s name).trans (resolveExpr_ext _ e)).trans
            (define_ext _ name)
  | While condition body =>
      rw [resolveStmt]
      exact (resolveExpr_ext s condition).trans (resolveStmt_ext _ body)
termination_by 3 * sizeOf st

theorem resolveStmts_ext (s : ResolverState) (l : List Stmt) :
    ErrsExtends s (resolveStmts s l) := by
  cases l with
  | nil => rw [resolveStmts]; exact ErrsExtends.rfl s
  | cons st rest =>
      rw [resolveStmts]
      exact (resolveStmt_ext s st).trans (resolveStmts_ext _ rest)
termination_by 3 * sizeOf l

theorem resolveExpr_ext (s : ResolverState) (e : Expr) :
    ErrsExtends s (resolveExpr s e) := by
  cases e with
  | Assign name value =>
      rw [resolveExpr]
      exact (resolveExpr_ext s value).trans (resolve_local_ext _ _ _)
  | Binary left operator right =>
      rw [resolveExpr]
      exact (resolveExpr_ext s left).trans (resolveExpr_ext _ right)
  | Call callee paren args =>
      rw [resolveExpr]
      exact (resolveExpr_ext s callee).trans (resolveExprs_ext _ args)
  | Get object name =>
      rw [resolveExpr]; exact resolveExpr_ext s object
  | Grouping g =>
      rw [resolveExpr]; exact resolveExpr_ext s g
  | Literal v =>
      rw [resolveExpr]; exact ErrsExtends.rfl s
  | Logical left operator right =>
      rw [resolveExpr]
      exact (resolveExpr_ext s left).trans (resolveExpr_ext _ right)
  | Set object name value =>
      rw [resolveExpr]
      exact (resolveExpr_ext s value).trans (resolveExpr_ext _ object)
  | Super keyword method =>
      rw [resolveExpr]
      try dsimp only
      refine ErrsExtends.trans ?_ (resolve_local_ext _ _ _)
      split
      · exact ⟨_, rfl⟩
      · split
        · exact ⟨_, rfl⟩
        · exact ErrsExtends.rfl s
  | This keyword =>
      rw [resolveExpr]
      try dsimp only
      refine ErrsExtends.trans ?_ (resolve_local_ext _ _ _)
      split
      · exact ⟨_, rfl⟩
      · exact ErrsExtends.rfl s
  | Unary operator right =>
      rw [resolveExpr]; exact resolveExpr_ext s right
  | Variable name =>
      rw [resolveExpr]; exact visitVariableExpr_ext s name
termination_by 3 * sizeOf e

theorem resolveExprs_ext (s : ResolverState) (l : List Expr) :
    ErrsExtends s (resolveExprs s l) := by
  cases l with
  | nil => rw [resolveExprs]; exact ErrsExtends.rfl s
  | cons e rest =>
      rw [resolveExprs]
      exact (resolveExpr_ext s e).trans (resolveExprs_ext _ rest)
termination_by 3 * sizeOf l

theorem resolveFunctionDecl_ext (s : ResolverState) (decl : FunctionDecl)
    (functionType : FunctionType) :
    ErrsExtends s (resolveFunctionDecl s decl functionType) := by
  cases decl with
  | mk name params body =>
      rw [resolveFunctionDecl]
      try dsimp only
      refine ErrsExtends.trans (setCurrentFunction_ext s functionType) ?_
      refine ErrsExtends.trans (beginScope_ext _) ?_
      refine ErrsExtends.trans (declareParams_ext _ params) ?_
      refine ErrsExtends.trans (resolveStmts_ext _ body) ?_
      refine ErrsExtends.trans (endScope_ext _) ?_
      exact ⟨[], by simp⟩
termination_by 3 * sizeOf decl

theorem resolveMethods_ext (s : ResolverState) (l : List FunctionDecl) :
    ErrsExtends s (resolveMethods s l) := by
  cases l with
  | nil => rw [resolveMethods]; exact ErrsExtends.rfl s
  | cons m rest =>
      rw [resolveMethods]
      exact (resolveFunctionDecl_ext s m _).trans (resolveMethods_ext _ rest)
termination_by 3 * sizeOf l

theorem resolveClassBody_ext (s : ResolverState)
    (methods : List FunctionDecl) :
    ErrsExtends s (resolveClassBody s methods) := by
  rw [resolveClassBody]
  try dsimp only
  exact (((beginScope_ext s).trans
    (setInCurrentScope_ext _ "this" true)).trans
    (resolveMethods_ext _ methods)).trans (endScope_ext _)
termination_by 3 * sizeOf methods + 1

theorem resolveClassStmt_ext (s : ResolverState) (name : Token)
    (superclass : Option Token) (methods : List FunctionDecl) :
    ErrsExtends s (resolveClassStmt s name superclass methods) := by
  cases superclass with
  | none =>
      rw [resolveClassStmt]
      try dsimp only
      refine ErrsExtends.trans (setCurrentClass_ext s .CLASS) ?_
      refine ErrsExtends.trans (declare_ext _ name) ?_
      refine ErrsExtends.trans (define_ext _ name) ?_
      refine ErrsExtends.trans (resolveClassBody_ext _ methods) ?_
      exact ⟨[], by simp⟩
  | some sup =>
      rw [resolveClassStmt]
      try dsimp only
      refine ErrsExtends.trans (setCurrentClass_ext s .CLASS) ?_
      refine ErrsExtends.trans (declare_ext _ name) ?_
      refine ErrsExtends.trans (define_ext _ name) ?_
      refine ErrsExtends.trans
        (ext_if_append (Resolver.define
          (Resolver.declare { s with currentClass := ClassType.CLASS } name)
          name) ((name.lexeme == sup.lexeme) = true)
          [(sup, "A class can't inherit from itself.")]) ?_
      generalize (if (name.lexeme == sup.lexeme) = true then
        { Resolver.define
            (Resolver.declare { s with currentClass := ClassType.CLASS } name)
            name with
          errors := (Resolver.define (Resolver.declare
            { s with currentClass := ClassType.CLASS } name) name).errors ++
            [(sup, "A class can't inherit from itself.")] }
        else Resolver.define
          (Resolver.declare { s with currentClass := ClassType.CLASS } name)
          name) = s2
      refine ErrsExtends.trans (setCurrentClass_ext s2 .SUBCLASS) ?_
      refine ErrsExtends.trans (visitVariableExpr_ext _ sup) ?_
      refine ErrsExtends.trans (beginScope_ext _) ?_
      refine ErrsExtends.trans (setInCurrentScope_ext _ "super" true) ?_
      refine ErrsExtends.trans (resolveClassBody_ext _ methods) ?_
      refine ErrsExtends.trans (endScope_ext _) ?_
      exact ⟨[], by simp⟩
termination_by 3 * sizeOf methods + 2

end

/-- C9: visiting a return statement records "Can't return from top-level
code." when outside any function (whatever the return carries), records
"Can't return a value from an initializer." for `return <expr>` inside an
initializer, and records nothing for a bare `return` inside an
initializer. -/
theorem c9_return_statement_errors (s : ResolverState) (keyword : Token) :
    (∀ value, s.currentFunction = .NONE →
      ∃ t, (resolveStmt s (.Return keyword value)).errors =
        s.errors ++ (keyword, "Can't return from top-level code.") :: t) ∧
    (∀ v, s.currentFunction = .INITIALIZER →
      ∃ t, (resolveStmt s (.Return keyword (some v))).errors =
        s.errors ++
          (keyword, "Can't return a value from an initializer.") :: t) ∧
    (s.currentFunction = .INITIALIZER →
      (resolveStmt s (.Return keyword none)).errors = s.errors) := by
  refine ⟨?_, ?_, ?_⟩
  · intro value h
    cases value with
    | none =>
        rw [resolveStmt]
        rw [if_pos h]
        exact ⟨[], by simp⟩
    | some v =>
        rw [resolveStmt]
        rw [if_pos h]
        split
        · rename_i hcond
          rw [show ({ s with errors := s.errors ++
              [(keyword, "Can't return from top-level code.")] } :
                ResolverState).currentFunction = s.currentFunction from rfl,
            h] at hcond
          exact absurd hcond (by decide)
        · obtain ⟨t2, ht2⟩ := resolveExpr_ext _ v
          exact ⟨t2, by rw [ht2]; simp⟩
  · intro v h
    rw [resolveStmt]
    rw [if_neg (show ¬ s.currentFunction = FunctionType.NONE by simp [h])]
    split
    · obtain ⟨t2, ht2⟩ := resolveExpr_ext _ v
      exact ⟨t2, by rw [ht2]; simp⟩
    · rename_i hcond
      exact absurd h hcond
  · intro h
    rw [resolveStmt]
    rw [if_neg (show ¬ s.currentFunction = FunctionType.NONE by simp [h])]

/-- C9 witness: the theorem applied at top level (bare return flagged) and
inside an initializer (valued return flagged, bare return silent). -/
theorem c9_witness :
    initialResolverState.currentFunction = .NONE ∧
    (∃ t, (resolveStmt initialResolverState (.Return retTok none)).errors =
      initialResolverState.errors ++
        (retTok, "Can't return from top-level code.") :: t) ∧
    initializerState.currentFunction = .INITIALIZER ∧
    (∃ t, (resolveStmt initializerState
        (.Return retTok (some (.Literal .nil)))).errors =
      initializerState.errors ++
        (retTok, "Can't return a value from an initializer.") :: t) ∧
    (resolveStmt initializerState (.Return retTok none)).errors =
      initializerState.errors := by
  refine ⟨rfl, ?_, rfl, ?_, ?_⟩
  · exact (c9_return_statement_errors initialResolverState retTok).1 none rfl
  · exact (c9_return_statement_errors initializerState retTok).2.1
      (.Literal .nil) rfl
  · exact (c9_return_statement_errors initializerState retTok).2.2 rfl

theorem dictGet_insert_self {α β : Type} [BEq α] [LawfulBEq α] (k : α)
    (v : β) : ∀ d : List (α × β), dictGet k (dictInsert k v d) = some v
  | [] => by simp [dictInsert, dictGet]
  | (k2, v2) :: rest => by
      by_cases h : (k2 == k) = true
      · simp [dictInsert, dictGet, h]
      · simp [dictInsert, dictGet, h, dictGet_insert_self k v rest]

theorem dictGet_insert_preserve {α β : Type} [BEq α] [LawfulBEq α]
    (x k : α) (v : β) :
    ∀ d : List (α × β), (dictGet x d).isSome = true →
      (dictGet x (dictInsert k v d)).isSome = true
  | [], h => by simp [dictGet] at h
  | (k2, v2) :: rest, h => by
      by_cases h3 : (k2 == x) = true
      · by_cases h2 : (k2 == k) = true <;> simp_all [dictInsert, dictGet]
      · have h4 : (dictGet x rest).isSome = true := by
          simpa [dictGet, h3] using h
        by_cases h2 : (k2 == k) = true
        · simp [dictInsert, dictGet, h2, h3, h4]
        · simp only [dictInsert, h2, Bool.false_eq_true, if_false]
          simp only [dictGet, h3, Bool.false_eq_true, if_false]
          exact dictGet_insert_preserve x k v rest h4

theorem dictGet_insert_of_ne {α β : Type} [BEq α] [LawfulBEq α]
    (x k : α) (v : β) (hne : ¬ x = k) :
    ∀ d : List (α × β), dictGet x (dictInsert k v d) = dictGet x d
  | [] => by
      have hkx : (k == x) = false := by
        rw [beq_eq_false_iff_ne]
        exact fun hh => hne hh.symm
      simp [dictInsert, dictGet, hkx]
  | (k2, v2) :: rest => by
      by_cases h2 : (k2 == k) = true
      · have hk2x : (k2 == x) = false := by
          rw [beq_eq_false_iff_ne]
          intro hh
          exact hne (by rw [← hh, eq_of_beq h2])
        simp [dictInsert, dictGet, h2, hk2x]
      · by_cases h3 : (k2 == x) = true
        · simp [dictInsert, dictGet, h2, h3]
        · simp [dictInsert, dictGet, h2, h3,
            dictGet_insert_of_ne x k v hne rest]

theorem dictInsert_length_of_none {α β : Type} [BEq α] [LawfulBEq α]
    (k : α) (v : β) :
    ∀ d : List (α × β), dictGet k d = none →
      (dictInsert k v d).length = d.length + 1
  | [], _ => rfl
  | (k2, v2) :: rest, h => by
      have h2 : (k2 == k) = false := by
        by_cases hk : (k2 == k) = true
        · exfalso; simp [dictGet, hk] at h
        · simpa using hk
      have h3 : dictGet k rest = none := by simpa [dictGet, h2] using h
      simp [dictInsert, h2, dictInsert_length_of_none k v rest h3]

/-- Binding distinct fresh names via `define` grows the values dict by one
entry per name. -/
theorem foldl_define_length :
    ∀ (ps : List (Token × LoxObject)) (env : Environment),
      (ps.map fun p => p.1.lexeme).Nodup →
      (∀ p ∈ ps, dictGet p.1.lexeme env.values = none) →
      ((ps.foldl (fun e pa => e.define pa.1.lexeme pa.2) env).values).length
        = env.values.length + ps.length
  | [], env, _, _ => by simp
  | p :: rest, env, hnd, hnone => by
      simp only [List.foldl_cons, List.length_cons]
      have hpn : dictGet p.1.lexeme env.values = none :=
        hnone p (List.mem_cons_self p rest)
      have hlen : (env.define p.1.lexeme p.2).values.length =
          env.values.length + 1 := by
        show (dictInsert p.1.lexeme p.2 env.values).length =
          env.values.length + 1
        exact dictInsert_length_of_none _ _ _ hpn
      have hnd2 : (p.1.lexeme :: (rest.map fun q => q.1.lexeme)).Nodup := hnd
      have hcons := List.nodup_cons.mp hnd2
      have hnone2 : ∀ q ∈ rest,
          dictGet q.1.lexeme (env.define p.1.lexeme p.2).values = none := by
        intro q hq
        have hqy : dictGet q.1.lexeme env.values = none :=
          hnone q (List.mem_cons_of_mem _ hq)
        have hne : ¬ q.1.lexeme = p.1.lexeme := by
          intro he
          have hm : q.1.lexeme ∈ rest.map fun r => r.1.lexeme :=
            List.mem_map.mpr ⟨q, hq, rfl⟩
          exact hcons.1 (he ▸ hm)
        show dictGet q.1.lexeme
          (dictInsert p.1.lexeme p.2 env.values) = none
        rw [dictGet_insert_of_ne _ _ _ hne, hqy]
      rw [foldl_define_length rest _ hcons.2 hnone2, hlen]
      omega

/-- The fresh call environment binds exactly one entry per parameter when
the parameter names are distinct and the argument count matches. -/
theorem callEnv_bindings (f : LoxFunction) (args : List LoxObject)
    (hlen : args.length = f.arity)
    (hnd : (f.declaration.params.map Token.lexeme).Nodup) :
    (f.callEnv args).values.length = f.arity := by
  have hle : f.declaration.params.length ≤ args.length := by
    unfold LoxFunction.arity at hlen
    omega
  have hmap : ((f.declaration.params.zip args).map fun p => p.1.lexeme) =
      f.declaration.params.map Token.lexeme := by
    rw [show (fun p : Token × LoxObject => p.1.lexeme) =
      (Token.lexeme ∘ Prod.fst) from rfl, ← List.map_map,
      List.map_fst_zip _ _ hle]
  have hfold := foldl_define_length (f.declaration.params.zip args)
    (Environment.mk [] (some f.closure)) (by rw [hmap]; exact hnd)
    (fun p _ => rfl)
  have hz : (f.declaration.params.zip args).length =
      f.declaration.params.length := by
    rw [List.length_zip]
    unfold LoxFunction.arity at hlen
    omega
  unfold LoxFunction.callEnv
  rw [hfold, hz]
  simp [Environment.values, LoxFunction.arity]

theorem declare_scopes_cons (s : ResolverState) (name : Token) (sc : Scope)
    (rest : List Scope) (hs : s.scopes = sc :: rest) :
    (Resolver.declare s name).scopes =
      dictInsert name.lexeme false sc :: rest := by
  unfold Resolver.declare
  rw [hs]

theorem define_scopes_cons (s : ResolverState) (name : Token) (sc : Scope)
    (rest : List Scope) (hs : s.scopes = sc :: rest) :
    (Resolver.define s name).scopes =
      dictInsert name.lexeme true sc :: rest := by
  unfold Resolver.define
  rw [hs]

theorem define_errors_eq (s : ResolverState) (name : Token) :
    (Resolver.define s name).errors = s.errors := by
  unfold Resolver.define
  cases s.scopes <;> rfl

theorem declare_errors_dup (s : ResolverState) (name : Token) (sc : Scope)
    (rest : List Scope) (hs : s.scopes = sc :: rest)
    (hin : (dictGet name.lexeme sc).isSome = true) :
    (Resolver.declare s name).errors = s.errors ++
      [(name, "Already a variable with this name in this scope.")] := by
  unfold Resolver.declare
  rw [hs]
  try dsimp only
  rw [if_pos hin]

/-- If some parameter's lexeme is already in the innermost scope, the
declare loop records the duplicate-declaration error. -/
theorem declareParams_flags_inscope :
    ∀ (ps : List Token) (s : ResolverState) (sc : Scope)
      (rest : List Scope), s.scopes = sc :: rest →
      (∃ q ∈ ps, (dictGet q.lexeme sc).isSome = true) →
      ∃ tok, (tok, "Already a variable with this name in this scope.") ∈
        (declareParams s ps).errors
  | [], s, sc, rest, hs, h => absurd h.choose_spec.1 (List.not_mem_nil _)
  | p :: ps2, s, sc, rest, hs, ⟨q, hq, hqin⟩ => by
      rw [declareParams]
      rcases List.mem_cons.mp hq with rfl | hq2
      · have herr := declare_errors_dup s q sc rest hs hqin
        have hmem : (q, "Already a variable with this name in this scope.")
            ∈ (Resolver.define (Resolver.declare s q) q).errors := by
          rw [define_errors_eq, herr]
          simp
        exact ⟨q, ErrsExtends.mem hmem (declareParams_ext _ ps2)⟩
      · have hs2 : (Resolver.define (Resolver.declare s p) p).scopes =
            dictInsert p.lexeme true (dictInsert p.lexeme false sc) ::
              rest :=
          define_scopes_cons _ _ _ _ (declare_scopes_cons s p sc rest hs)
        have hin2 : (dictGet q.lexeme (dictInsert p.lexeme true
            (dictInsert p.lexeme false sc))).isSome = true :=
          dictGet_insert_preserve _ _ _ _
            (dictGet_insert_preserve _ _ _ _ hqin)
        exact declareParams_flags_inscope ps2 _ _ rest hs2 ⟨q, hq2, hin2⟩

/-- A duplicated parameter lexeme makes the declare loop record the
duplicate-declaration error. -/
theorem declareParams_flags_dup :
    ∀ (ps : List Token) (s : ResolverState) (sc : Scope)
      (rest : List Scope), s.scopes = sc :: rest →
      ¬ (ps.map Token.lexeme).Nodup →
      ∃ tok, (tok, "Already a variable with this name in this scope.") ∈
        (declareParams s ps).errors
  | [], s, sc, rest, hs, hnd => by simp at hnd
  | p :: ps2, s, sc, rest, hs, hnd => by
      have hshape : (Resolver.define (Resolver.declare s p) p).scopes =
          dictInsert p.lexeme true (dictInsert p.lexeme false sc) :: rest :=
        define_scopes_cons _ _ _ _ (declare_scopes_cons s p sc rest hs)
      by_cases hmem : p.lexeme ∈ ps2.map Token.lexeme
      · rw [declareParams]
        rcases List.mem_map.mp hmem with ⟨q, hq, hql⟩
        have hin : (dictGet q.lexeme (dictInsert p.lexeme true
            (dictInsert p.lexeme false sc))).isSome = true := by
          rw [hql, dictGet_insert_self]
          rfl
        exact declareParams_flags_inscope ps2 _ _ rest hshape ⟨q, hq, hin⟩
      · have hnd2 : ¬ (ps2.map Token.lexeme).Nodup := by
          intro h
          exact hnd (by simpa using List.nodup_cons.mpr ⟨hmem, h⟩)
        rw [declareParams]
        exact declareParams_flags_dup ps2 _ _ rest hshape hnd2

/-- `resolve_function` on a declaration with duplicated parameter names
leaves at least the duplicate-declaration error in the resolver's list, so
such a program does not pass resolution. -/
theorem resolveFunctionDecl_flags_dup (s : ResolverState)
    (decl : FunctionDecl) (ft : FunctionType)
    (hnd : ¬ (decl.params.map Token.lexeme).Nodup) :
    ∃ tok, (tok, "Already a variable with this name in this scope.") ∈
      (resolveFunctionDecl s decl ft).errors := by
  cases decl with
  | mk name params body =>
      rw [resolveFunctionDecl]
      try dsimp only
      obtain ⟨tok, htok⟩ := declareParams_flags_dup params
        (Resolver.beginScope { s with currentFunction := ft }) []
        ({ s with currentFunction := ft }).scopes
        (by simp [Resolver.beginScope])
        (by simpa [FunctionDecl.params] using hnd)
      exact ⟨tok, ErrsExtends.mem htok (resolveStmts_ext _ body)⟩

/-- C4: a call whose argument count differs from the callee's arity raises
"Expected N arguments but got M." without running any body (the outcome
does not depend on the executor); when the count matches and the program
passed resolution (the resolver rejects duplicate parameter names, third
conjunct), the fresh call environment holds exactly arity bindings. -/
theorem c4_call_arity (paren : Token) (c : LoxCallable)
    (args : List LoxObject) :
    (args.length ≠ c.arity →
      (∀ exec exec2,
        visit_call_expr paren (.callable c) args exec =
          visit_call_expr paren (.callable c) args exec2) ∧
      (∀ exec, visit_call_expr paren (.callable c) args exec =
        .raised ⟨paren, "Expected " ++ toString c.arity ++
          " arguments but got " ++ toString args.length ++ "."⟩)) ∧
    (∀ f : LoxFunction, c = .fn f → args.length = c.arity →
      (f.declaration.params.map Token.lexeme).Nodup →
      (f.callEnv args).values.length = f.arity) ∧
    (∀ (f : LoxFunction) (s : ResolverState) (ft : FunctionType),
      ¬ (f.declaration.params.map Token.lexeme).Nodup →
      ∃ tok, (tok, "Already a variable with this name in this scope.") ∈
        (resolveFunctionDecl s f.declaration ft).errors) := by
  refine ⟨?_, ?_, ?_⟩
  · intro h
    constructor
    · intro exec exec2
      simp [visit_call_expr, h]
    · intro exec
      simp [visit_call_expr, h]
  · rintro f rfl hlen hnd
    exact callEnv_bindings f args hlen hnd
  · intro f s ft hnd
    exact resolveFunctionDecl_flags_dup s f.declaration ft hnd

/-- C4 witness: calling the two-parameter `f` with one argument raises the
arity error; with two arguments the fresh environment holds two bindings;
and resolving `g(x, x)` records the duplicate-parameter error. -/
theorem c4_witness :
    ([(.lit .nil : LoxObject)].length ≠ LoxCallable.arity (.fn fnXY)) ∧
    visit_call_expr parenTok (.callable (.fn fnXY)) [.lit .nil] execNormal =
      .raised ⟨parenTok, "Expected " ++ toString (LoxCallable.arity (.fn fnXY))
        ++ " arguments but got " ++ toString [(.lit .nil : LoxObject)].length
        ++ "."⟩ ∧
    (fnXY.callEnv [.lit .nil, .lit (.boolean true)]).values.length =
      fnXY.arity ∧
    (∃ tok, (tok, "Already a variable with this name in this scope.") ∈
      (resolveFunctionDecl initialResolverState dupDecl .FUNCTION).errors) := by
  refine ⟨by decide, ?_, ?_, ?_⟩
  · exact ((c4_call_arity parenTok (.fn fnXY) [.lit .nil]).1
      (by decide)).2 execNormal
  · exact (c4_call_arity parenTok (.fn fnXY)
      [.lit .nil, .lit (.boolean true)]).2.1 fnXY rfl (by decide) (by decide)
  · exact (c4_call_arity parenTok (.fn ⟨dupDecl, closure0, false⟩) []).2.2
      ⟨dupDecl, closure0, false⟩ initialResolverState .FUNCTION (by decide)

end Loxygen
